import Mathlib

/-!
Verification development for the `bigantr_model` repository
(`src/model_base.py` and `src/bigantr_lem/bigantr_lem.py`).

The development shallowly embeds the Python source:

* nested parameter dictionaries become the inductive type `PVal` /
  `PDict` (insertion-ordered association lists, as Python dicts are);
* in-place mutation of a dictionary is modelled by returning the
  post-state; a raised exception is modelled by `Option`/`Except`
  results (`none` / `.error`);
* Python floats are modelled by exact rationals `ℚ` (the scheduler's
  arithmetic is plain `+`, `-`, `min`, comparisons);
* unbounded `while` loops are modelled with an explicit fuel parameter,
  structurally recursive on the fuel so that terms evaluate by kernel
  reduction; `none` means the fuel was exhausted (the loop did not
  terminate within the given number of iterations).
-/

/-- A Python value as it appears in the nested parameter dictionaries of
`model_base.py`: strings, numbers, booleans, `None`, lists, Landlab grid
objects, and nested dictionaries (insertion-ordered key/value lists). -/
inductive PVal where
  | str : String → PVal
  | num : ℚ → PVal
  | pbool : Bool → PVal
  | pnone : PVal
  | plist : List PVal → PVal
  | grid : ℕ → PVal
  | pdict : List (String × PVal) → PVal

/-- A Python dictionary: an insertion-ordered association list. -/
abbrev PDict := List (String × PVal)

/-- First-occurrence lookup in an association list: `d[k]` read access /
`k in d` membership test of a Python dict. -/
def lookupKV {α : Type} : List (String × α) → String → Option α
  | [], _ => none
  | (k, v) :: rest, key => if k = key then some v else lookupKV rest key

/-- Assignment `d[k] = x` to a key that is already present in a Python
dict: the value is replaced in place, the key keeps its position. -/
def setKey {α : Type} : List (String × α) → String → α → List (String × α)
  | [], _, _ => []
  | (k, v) :: rest, key, x =>
    if k = key then (k, x) :: rest else (k, v) :: setKey rest key x

/-- The `isinstance(v, dict)` test of `model_base.py` line 40. -/
def isDict : PVal → Bool
  | PVal.pdict _ => true
  | _ => false

/-- Descend through nested dictionaries along a list of keys; used to
speak about an individual parameter leaf of a configuration tree. -/
def getPath : PDict → List String → Option PVal
  | _, [] => none
  | l, [k] => lookupKV l k
  | l, k :: rest =>
    match lookupKV l k with
    | some (PVal.pdict w) => getPath w rest
    | _ => none

/-- Shallow embedding of `merge_user_and_default_params` of
`src/model_base.py` lines 19-42.  The Python function mutates
`user_params` in place; the embedding returns the post-state.  Source:

for `k` over the keys of `default_params`, in order: if `k` is absent
from `user_params`, `user_params[k] = default_params[k]` (appended at
the end, Python dicts keep insertion order); else if
`isinstance(user_params[k], dict) and k != "grid"`, recurse into
`merge_user_and_default_params(user_params[k], default_params[k])`.
Note that only the USER value is tested for dict-ness: when the user
value is a dict but the default value is not, the recursive call does
`default_params.keys()` on a non-dict and raises `AttributeError`,
which the embedding models as `none`. -/
def merge_user_and_default_params : PDict → PDict → Option PDict
  | user_params, [] => some user_params
  | user_params, (k, dv) :: rest =>
    match lookupKV user_params k with
    | none => merge_user_and_default_params (user_params ++ [(k, dv)]) rest
    | some uv =>
      if k = "grid" then
        merge_user_and_default_params user_params rest
      else
        match uv with
        | PVal.pdict ud =>
          (match dv with
           | PVal.pdict dd =>
             match merge_user_and_default_params ud dd with
             | some m =>
               merge_user_and_default_params (setKey user_params k (PVal.pdict m)) rest
             | none => none
           | _ => none)
        | _ => merge_user_and_default_params user_params rest
termination_by _u d => sizeOf d

/-- A user configuration already contains every default key, at every
nesting level at which the merge recurses: each default key is present
in the user dictionary, and wherever the user value at a shared
non-`"grid"` key is itself a dictionary, the default value is one too
and the condition holds recursively beneath it. -/
def fullyPopulated : PDict → PDict → Bool
  | _, [] => true
  | u, (k, dv) :: rest =>
    (match lookupKV u k with
     | none => false
     | some uv =>
       if k = "grid" then true
       else
         match uv with
         | PVal.pdict ud =>
           (match dv with
            | PVal.pdict dd => fullyPopulated ud dd
            | _ => false)
         | _ => true)
    && fullyPopulated u rest
termination_by _u d => sizeOf d

/-- A named per-node field attached to a Landlab grid: the dtype it was
created with and its dense per-node data (modelled as exact rationals). -/
structure NodeField where
  dtype : String
  data : List ℚ
deriving DecidableEq, Repr

/-- A Landlab model grid as far as this repository touches it: a node
count and the named node fields attached to it (`grid.at_node`). -/
structure GridObj where
  number_of_nodes : ℕ
  at_node : List (String × NodeField)
deriving DecidableEq, Repr

/-- `grid.add_zeros(name, at="node", dtype=dtype, clobber=True)`:
attach a fresh zero-filled per-node array under `name` and return the
grid carrying it. -/
def add_zeros (g : GridObj) (name dtype : String) : GridObj :=
  { g with at_node := g.at_node ++ [(name, ⟨dtype, List.replicate g.number_of_nodes 0⟩)] }

/-- Shallow embedding of `get_or_create_node_field` of
`src/model_base.py` lines 45-50: try `grid.at_node[name]`; on
`KeyError` create the field with `add_zeros` and return it.  The
embedding returns the field together with the (possibly extended)
grid. -/
def get_or_create_node_field (g : GridObj) (name : String)
    (dtype : String := "float64") : NodeField × GridObj :=
  match lookupKV g.at_node name with
  | some f => (f, g)
  | none => (⟨dtype, List.replicate g.number_of_nodes 0⟩, add_zeros g name dtype)

/-- The Python exceptions the embedded code can raise. -/
inductive PyError where
  | keyError (k : String)
  | attributeError (attr : String)
  | valueError
  | typeError
deriving DecidableEq, Repr

/-- Test whether an exception is an attribute-lookup error. -/
def isAttributeError : PyError → Bool
  | PyError.attributeError _ => true
  | _ => false

/-- Test whether a parameter value is a Landlab grid instance
(`isinstance(v, ModelGrid)` of `src/model_base.py` line 117). -/
def isGridVal : PVal → Bool
  | PVal.grid _ => true
  | _ => false

/-- Python subscription `v[k]`: `KeyError` when the dict lacks the key,
`TypeError` when `v` is not a dict. -/
def getItem (v : PVal) (k : String) : Except PyError PVal :=
  match v with
  | PVal.pdict l =>
    match lookupKV l k with
    | some x => Except.ok x
    | none => Except.error (PyError.keyError k)
  | _ => Except.error PyError.typeError

/-- Shallow embedding of `LandlabModel.setup_grid` of
`src/model_base.py` lines 85-121.  The external library calls
`create_grid` and `load_grid` are opaque collaborators, passed in as
`cg` and `lg`.  Dispatch on `grid_params["source"]`:
`"create"` builds a grid from the spec, `"file"` loads
`grid_params["grid_file_name"]`, `"grid_object"` accepts
`grid_params["grid_object"]` if it is a grid instance and otherwise
prints a message and raises `ValueError`.  An unrecognized source falls
through all branches and leaves `self.grid` unassigned, modelled as
`Except.ok none`. -/
def setup_grid (cg lg : PVal → Except PyError ℕ) (grid_params : PVal) :
    Except PyError (Option ℕ) :=
  match getItem grid_params "source" with
  | Except.error e => Except.error e
  | Except.ok src =>
    match src with
    | PVal.str s =>
      if s = "create" then
        match cg grid_params with
        | Except.error e => Except.error e
        | Except.ok g => Except.ok (some g)
      else if s = "file" then
        match getItem grid_params "grid_file_name" with
        | Except.error e => Except.error e
        | Except.ok fn =>
          match lg fn with
          | Except.error e => Except.error e
          | Except.ok g => Except.ok (some g)
      else if s = "grid_object" then
        match getItem grid_params "grid_object" with
        | Except.error e => Except.error e
        | Except.ok (PVal.grid g) => Except.ok (some g)
        | Except.ok _ => Except.error PyError.valueError
      else Except.ok none
    | _ => Except.ok none

/-- Shallow embedding of `LandlabModel.__init__` of
`src/model_base.py` lines 74-83.  The constructor runs
`self.setup_grid(params["grid"])` and then calls
`self.setup_fields()` — a method that is defined neither by
`LandlabModel` nor by `BigantrLEM` nor anywhere else in the repository,
so the attribute lookup raises `AttributeError` whenever the grid phase
did not already raise.  The remaining constructor lines
(`setup_for_output`, `instantiate_components`, `setup_run_control`) are
unreachable; `merge_user_and_default_params` is never invoked. -/
def LandlabModel_init (cg lg : PVal → Except PyError ℕ) (params : PVal) :
    Except PyError Unit :=
  match getItem params "grid" with
  | Except.error e => Except.error e
  | Except.ok gp =>
    match setup_grid cg lg gp with
    | Except.error e => Except.error e
    | Except.ok _ => Except.error (PyError.attributeError "setup_fields")

/-- Shallow embedding of `BigantrLEM.__init__` of
`src/bigantr_lem/bigantr_lem.py` lines 69-126: its first statement is
`super().__init__(params)`, which always raises (see
`LandlabModel_init`), so none of the subclass's own initialization code
is ever reached. -/
def BigantrLEM_init (cg lg : PVal → Except PyError ℕ) (params : PVal) :
    Except PyError Unit :=
  LandlabModel_init cg lg params

/-- A stub external grid factory standing in for `create_grid` /
`load_grid`, used to instantiate the universally quantified
collaborators in concrete counterexamples and witnesses. -/
def cgStub : PVal → Except PyError ℕ := fun _ => Except.ok 0

/-- The attributes of a `LandlabModel` instance that the output
scheduler and run controller touch (`src/model_base.py` lines
123-176).  `next_report` is an `Option` because no code path in the
repository ever assigns `self.next_report`: reading it on a state where
it is `none` is the `AttributeError` of Python. -/
structure SchedState where
  current_time : ℚ
  plot_interval : ℚ
  next_plot : ℚ
  save_interval : ℚ
  next_save : ℚ
  next_report : Option ℚ
  ndigits : ℕ
  frame_num : ℕ
  save_num : ℕ
  save_name : String
  run_duration : ℚ
  dt : ℚ
deriving DecidableEq, Repr

/-- Shallow embedding of `LandlabModel.setup_for_output` of
`src/model_base.py` lines 123-133, with the values read from the
`params` dict passed in directly: sets `plot_interval`,
`next_plot = plot_interval`, `save_interval`,
`next_save = save_interval`, `ndigits`, `frame_num = 0`,
`save_num = 0`, `save_name`.  It assigns nothing to `next_report`
(there is no `report_interval` parameter anywhere in the class). -/
def setup_for_output (plot_interval save_interval : ℚ) (ndigits : ℕ)
    (save_name : String) (s : SchedState) : SchedState :=
  { s with
    plot_interval := plot_interval
    next_plot := plot_interval
    save_interval := save_interval
    next_save := save_interval
    ndigits := ndigits
    frame_num := 0
    save_num := 0
    save_name := save_name }

/-- Shallow embedding of `LandlabModel.setup_run_control` of
`src/model_base.py` lines 135-139: sets `run_duration`, `dt` and
`current_time = start_time`.  It, too, assigns nothing to
`next_report`. -/
def setup_run_control (run_duration dt start_time : ℚ) (s : SchedState) :
    SchedState :=
  { s with
    run_duration := run_duration
    dt := dt
    current_time := start_time }

/-- Shallow embedding of `LandlabModel.update` of `src/model_base.py`
lines 141-143: advance the model clock by one step of duration `dt`.
(`BigantrLEM.update` additionally mutates grid fields through the two
external components but advances `current_time` identically.) -/
def update (s : SchedState) (dt : ℚ) : SchedState :=
  { s with current_time := s.current_time + dt }

/-- The `while remaining_time > 0.0` loop of
`LandlabModel.update_until` (`src/model_base.py` lines 148-151), with
fuel.  Each iteration rebinds `dt = min(dt, remaining_time)`, calls
`self.update(dt)` and decrements `remaining_time` by `dt`, exactly as
in the source.  The returned list records the `dt` passed to each
`update` call; `none` means the loop did not finish within `fuel`
iterations. -/
def update_until_loop : ℕ → SchedState → ℚ → ℚ → Option (SchedState × List ℚ)
  | 0, s, remaining, _dt =>
    if 0 < remaining then none else some (s, [])
  | n + 1, s, remaining, dt =>
    if 0 < remaining then
      let d := min dt remaining
      match update_until_loop n (update s d) (remaining - d) d with
      | some (sf, steps) => some (sf, d :: steps)
      | none => none
    else some (s, [])

/-- Shallow embedding of `LandlabModel.update_until` of
`src/model_base.py` lines 145-151: compute
`remaining_time = update_to_time - self.current_time` once, then run
the sub-stepping loop. -/
def update_until (fuel : ℕ) (s : SchedState) (update_to_time dt : ℚ) :
    Option (SchedState × List ℚ) :=
  update_until_loop fuel s (update_to_time - s.current_time) dt

/-- An output action fired by the run loop, with the `current_time` at
which it fired.  The methods `self.report()`, `self.plot()` and
`self.save_state(n)` are not defined anywhere in the repository; the
embedding records the call as an event so that the scheduling logic of
`run` itself can be examined (their absence is the subject of the
construction-failure theorems). -/
inductive OutEvent where
  | report (t : ℚ)
  | plot (t : ℚ)
  | save (t : ℚ) (num : ℕ)
deriving DecidableEq, Repr

/-- The three trigger checks at the end of one iteration of the `run`
loop (`src/model_base.py` lines 168-176), in report → plot → save
order, given the value `nr` read from `self.next_report`.  Only the
plot branch advances its trigger
(`self.next_plot += self.plot_interval`); the save branch increments
`save_num` before `save_state(save_num)`; the report branch advances
nothing. -/
def fire_triggers (nr : ℚ) (s1 : SchedState) : SchedState × List OutEvent :=
  let evR : List OutEvent :=
    if nr ≤ s1.current_time then [OutEvent.report s1.current_time] else []
  let evP : List OutEvent :=
    if s1.next_plot ≤ s1.current_time then [OutEvent.plot s1.current_time] else []
  let s2 :=
    if s1.next_plot ≤ s1.current_time then
      { s1 with next_plot := s1.next_plot + s1.plot_interval }
    else s1
  let s3 :=
    if s2.next_save ≤ s2.current_time then { s2 with save_num := s2.save_num + 1 }
    else s2
  let evS : List OutEvent :=
    if s2.next_save ≤ s2.current_time then [OutEvent.save s3.current_time s3.save_num]
    else []
  (s3, evR ++ evP ++ evS)

/-- The `while self.current_time < stop_time` loop of
`LandlabModel.run` (`src/model_base.py` lines 164-176), with fuel.
Each iteration: `next_pause = min(min(next_plot, next_save),
next_report)` (reading `self.next_report` raises `AttributeError` when
it was never assigned), `self.update_until(next_pause, dt)`, then the
trigger checks of `fire_triggers`. -/
def run_loop : ℕ → SchedState → ℚ → ℚ →
    Option (Except PyError (SchedState × List OutEvent))
  | 0, s, stop_time, _dt =>
    if s.current_time < stop_time then none else some (Except.ok (s, []))
  | n + 1, s, stop_time, dt =>
    if s.current_time < stop_time then
      match s.next_report with
      | none => some (Except.error (PyError.attributeError "next_report"))
      | some nr =>
        let next_pause := min (min s.next_plot s.next_save) nr
        match update_until (n + 1) s next_pause dt with
        | none => none
        | some (s1, _steps) =>
          let fs := fire_triggers nr s1
          match run_loop n fs.1 stop_time dt with
          | none => none
          | some (Except.error e) => some (Except.error e)
          | some (Except.ok (sf, evs)) =>
            some (Except.ok (sf, fs.2 ++ evs))
    else some (Except.ok (s, []))

/-- Shallow embedding of `LandlabModel.run` of `src/model_base.py`
lines 153-176 with explicit `run_duration` and `dt` arguments (the
source defaults them to `self.run_duration` / `self.dt` when absent):
`stop_time = run_duration + self.current_time`, then the outer loop. -/
def run (fuel : ℕ) (s : SchedState) (run_duration dt : ℚ) :
    Option (Except PyError (SchedState × List OutEvent)) :=
  run_loop fuel s (run_duration + s.current_time) dt

/-- A scheduler state as the class intends it to be set up, with the
save trigger at 10 (interval 10) and the plot/report triggers at 50;
`next_report` is given the value the spec prescribes
(`report_interval = 50`), counterfactually, since no code assigns it.
Used to exhibit what `run(30, 10)` does to the save trigger. -/
def c2state : SchedState :=
  { current_time := 0
    plot_interval := 50
    next_plot := 50
    save_interval := 10
    next_save := 10
    next_report := some 50
    ndigits := 0
    frame_num := 0
    save_num := 0
    save_name := "bigantr_run"
    run_duration := 30
    dt := 10 }

/-- A scheduler state whose plot trigger follows the interval 10; the
save and report triggers sit at 1000, far beyond the run.  Used to
exhibit that the plot trigger alone behaves as the spec describes. -/
def c2plotstate : SchedState :=
  { current_time := 0
    plot_interval := 10
    next_plot := 10
    save_interval := 1000
    next_save := 1000
    next_report := some 1000
    ndigits := 0
    frame_num := 0
    save_num := 0
    save_name := "bigantr_run"
    run_duration := 30
    dt := 10 }

/-- A scheduler state with all three triggers at 100: the next
scheduled pause (100) lies beyond the stop boundary of `run(30, 10)`
(which is 30).  Used to exhibit the overshoot of the run loop. -/
def c4state : SchedState :=
  { current_time := 0
    plot_interval := 100
    next_plot := 100
    save_interval := 100
    next_save := 100
    next_report := some 100
    ndigits := 0
    frame_num := 0
    save_num := 0
    save_name := "bigantr_run"
    run_duration := 30
    dt := 10 }

/-- The state in which `run 12 c4state 30 10` returns: the final
sub-stepping ran all the way to the scheduled pause at 100, past the
stop boundary 30. -/
def c4final : SchedState :=
  { c4state with current_time := 100, next_plot := 200, save_num := 1 }

/-- The class attribute `LandlabModel.DEFAULT_PARAMS` of
`src/model_base.py` lines 56-72, as a `PDict`. -/
def LandlabModel_DEFAULT_PARAMS : PDict :=
  [("grid", PVal.pdict
      [("source", PVal.str "create"),
       ("create_grid", PVal.pdict
         [("RasterModelGrid", PVal.plist
            [PVal.pdict [("shape", PVal.plist [PVal.num 5, PVal.num 5])],
             PVal.pdict [("spacing", PVal.num 1)]])])]),
   ("clock", PVal.pdict
      [("start", PVal.num 0), ("stop", PVal.num 2), ("step", PVal.num 1)]),
   ("output", PVal.pdict
      [("interval", PVal.num 10), ("filepath", PVal.str "model_output"),
       ("clobber", PVal.pbool true), ("fields", PVal.pnone)])]

/-- The class attribute `BigantrLEM.DEFAULT_PARAMS` of
`src/bigantr_lem/bigantr_lem.py` lines 23-67, as a `PDict`. -/
def BigantrLEM_DEFAULT_PARAMS : PDict :=
  [("grid", PVal.pdict
      [("source", PVal.str "create"),
       ("create_grid", PVal.pdict
         [("RasterModelGrid", PVal.plist
            [PVal.plist [PVal.num 31, PVal.num 31],
             PVal.pdict [("xy_spacing", PVal.num 1000)]])])]),
   ("clock", PVal.pdict
      [("start", PVal.num 0), ("stop", PVal.num 10000), ("step", PVal.num 10)]),
   ("output", PVal.pdict
      [("plot_times", PVal.num 2000), ("save_times", PVal.num 10000),
       ("report_times", PVal.num 1000), ("save_path", PVal.str "bigantr_run"),
       ("clobber", PVal.pbool true), ("fields", PVal.pnone),
       ("plot_to_file", PVal.pbool true)]),
   ("initial_conditions", PVal.pdict
      [("initial_sed_thickness", PVal.num 1), ("random_topo_amp", PVal.num 10)]),
   ("baselevel", PVal.pdict [("uplift_rate", PVal.num (1/10000))]),
   ("flow_routing", PVal.pdict
      [("flow_metric", PVal.str "D8"), ("update_flow_depressions", PVal.pbool true),
       ("depression_handler", PVal.str "fill"), ("epsilon", PVal.pbool true)]),
   ("fluvial", PVal.pdict
      [("intermittency_factor", PVal.num (1/100)),
       ("transport_coefficient", PVal.num (41/1000)),
       ("sediment_porosity", PVal.num (1/3)),
       ("depth_decay_scale", PVal.num 1),
       ("plucking_coefficient", PVal.num (1/10000)),
       ("number_of_sediment_classes", PVal.num 1),
       ("init_thickness_per_class", PVal.plist [PVal.num 1]),
       ("abrasion_coefficients", PVal.plist [PVal.num (1/10000)]),
       ("coarse_fractions_from_plucking", PVal.plist [PVal.num (1/2)]),
       ("rock_abrasion_index", PVal.num 0)])]

/-! Association-list lemmas used throughout the merge proofs. -/

theorem lookupKV_append {α : Type} (l1 l2 : List (String × α)) (k : String) :
    lookupKV (l1 ++ l2) k =
      match lookupKV l1 k with
      | some v => some v
      | none => lookupKV l2 k := by
  induction l1 with
  | nil => simp [lookupKV]
  | cons p rest ih =>
    obtain ⟨k0, v0⟩ := p
    by_cases h : k0 = k <;> simp [lookupKV, h, ih]

theorem lookupKV_append_some {α : Type} {l1 : List (String × α)} {k : String}
    {v : α} (h : lookupKV l1 k = some v) (l2 : List (String × α)) :
    lookupKV (l1 ++ l2) k = some v := by
  rw [lookupKV_append, h]

theorem lookupKV_append_none {α : Type} {l1 : List (String × α)} {k : String}
    (h : lookupKV l1 k = none) (l2 : List (String × α)) :
    lookupKV (l1 ++ l2) k = lookupKV l2 k := by
  rw [lookupKV_append, h]

theorem lookupKV_setKey_self {α : Type} {l : List (String × α)} {k : String}
    {w : α} (h : lookupKV l k = some w) (x : α) :
    lookupKV (setKey l k x) k = some x := by
  induction l with
  | nil => simp [lookupKV] at h
  | cons p rest ih =>
    obtain ⟨k0, v0⟩ := p
    by_cases hk : k0 = k
    · simp [lookupKV, setKey, hk]
    · simp [lookupKV, setKey, hk] at h ⊢
      exact ih h

theorem lookupKV_setKey_ne {α : Type} (l : List (String × α)) {k' k : String}
    (h : k' ≠ k) (x : α) : lookupKV (setKey l k' x) k = lookupKV l k := by
  induction l with
  | nil => simp [setKey]
  | cons p rest ih =>
    obtain ⟨k0, v0⟩ := p
    by_cases hk : k0 = k'
    · subst hk
      have hne : k0 ≠ k := h
      simp [lookupKV, setKey, hne]
    · by_cases hk2 : k0 = k
      · subst hk2
        simp [lookupKV, setKey, hk]
      · simp [lookupKV, setKey, hk, hk2, ih]

theorem setKey_lookup_id {α : Type} {l : List (String × α)} {k : String}
    {x : α} (h : lookupKV l k = some x) : setKey l k x = l := by
  induction l with
  | nil => simp [lookupKV] at h
  | cons p rest ih =>
    obtain ⟨k0, v0⟩ := p
    by_cases hk : k0 = k
    · subst hk
      simp [lookupKV] at h
      simp [setKey, h]
    · simp [lookupKV, hk] at h
      simp [setKey, hk, ih h]

theorem lookupKV_eq_none_of_not_mem {α : Type} {l : List (String × α)}
    {k : String} (h : k ∉ l.map Prod.fst) : lookupKV l k = none := by
  induction l with
  | nil => simp [lookupKV]
  | cons p rest ih =>
    obtain ⟨k0, v0⟩ := p
    rw [List.map_cons] at h
    simp only [List.mem_cons, not_or] at h
    obtain ⟨h1, h2⟩ := h
    have hne : k0 ≠ k := fun hh => h1 hh.symm
    simp [lookupKV, hne, ih h2]

/-! Branch-shape lemmas for one step of `merge_user_and_default_params`. -/

theorem merge_nil (u : PDict) : merge_user_and_default_params u [] = some u := by
  rw [merge_user_and_default_params.eq_1]

theorem merge_cons_absent {u : PDict} {k : String} (dv : PVal) (rest : PDict)
    (hu : lookupKV u k = none) :
    merge_user_and_default_params u ((k, dv) :: rest) =
      merge_user_and_default_params (u ++ [(k, dv)]) rest := by
  rw [merge_user_and_default_params.eq_2, hu]

theorem merge_cons_grid {u : PDict} {uv : PVal} (dv : PVal) (rest : PDict)
    (hu : lookupKV u "grid" = some uv) :
    merge_user_and_default_params u (("grid", dv) :: rest) =
      merge_user_and_default_params u rest := by
  rw [merge_user_and_default_params.eq_2, hu]
  simp

theorem merge_cons_nondict {u : PDict} {k : String} {uv : PVal} (dv : PVal)
    (rest : PDict) (hu : lookupKV u k = some uv) (hd : isDict uv = false) :
    merge_user_and_default_params u ((k, dv) :: rest) =
      merge_user_and_default_params u rest := by
  rw [merge_user_and_default_params.eq_2, hu]
  by_cases hg : k = "grid"
  · simp [hg]
  · simp only [if_neg hg]
    cases uv <;> simp_all [isDict]

theorem merge_cons_dict_nondict {u : PDict} {k : String} {ud : PDict} (dv : PVal)
    (rest : PDict) (hu : lookupKV u k = some (PVal.pdict ud)) (hg : k ≠ "grid")
    (hd : isDict dv = false) :
    merge_user_and_default_params u ((k, dv) :: rest) = none := by
  rw [merge_user_and_default_params.eq_2, hu]
  simp only [if_neg hg]
  cases dv <;> simp_all [isDict]

theorem merge_cons_dict_dict {u : PDict} {k : String} {ud : PDict}
    (dd rest : PDict) (hu : lookupKV u k = some (PVal.pdict ud)) (hg : k ≠ "grid") :
    merge_user_and_default_params u ((k, PVal.pdict dd) :: rest) =
      (match merge_user_and_default_params ud dd with
       | some m => merge_user_and_default_params (setKey u k (PVal.pdict m)) rest
       | none => none) := by
  rw [merge_user_and_default_params.eq_2, hu]
  simp only [if_neg hg]

/-- Keys that the defaults dictionary does not mention are untouched by
the merge. -/
theorem merge_frame : ∀ (d u r : PDict),
    merge_user_and_default_params u d = some r →
    ∀ key, lookupKV d key = none → lookupKV r key = lookupKV u key := by
  intro d
  induction d with
  | nil =>
    intro u r h key _
    rw [merge_nil] at h
    injection h with h
    subst h
    rfl
  | cons p rest ih =>
    intro u r h key hkey
    obtain ⟨k0, dv0⟩ := p
    have hk0 : k0 ≠ key := by
      intro hh
      simp [lookupKV, hh] at hkey
    have hrest : lookupKV rest key = none := by
      simpa [lookupKV, hk0] using hkey
    cases hu : lookupKV u k0 with
    | none =>
      rw [merge_cons_absent dv0 rest hu] at h
      rw [ih _ _ h key hrest, lookupKV_append]
      cases hu2 : lookupKV u key with
      | some v => simp
      | none => simp [lookupKV, hk0]
    | some uv =>
      by_cases hg : k0 = "grid"
      · subst hg
        rw [merge_cons_grid dv0 rest hu] at h
        exact ih _ _ h key hrest
      · by_cases hpd : isDict uv = true
        · have hex : ∃ w, uv = PVal.pdict w := by
            cases uv <;> first | exact ⟨_, rfl⟩ | simp [isDict] at hpd
          obtain ⟨ud, rfl⟩ := hex
          by_cases hdv : isDict dv0 = true
          · have hex2 : ∃ w, dv0 = PVal.pdict w := by
              cases dv0 <;> first | exact ⟨_, rfl⟩ | simp [isDict] at hdv
            obtain ⟨dd, rfl⟩ := hex2
            rw [merge_cons_dict_dict dd rest hu hg] at h
            cases hm : merge_user_and_default_params ud dd with
            | none =>
              rw [hm] at h
              exact Option.noConfusion h
            | some m =>
              rw [hm] at h
              rw [ih _ _ h key hrest, lookupKV_setKey_ne _ hk0]
          · have hd : isDict dv0 = false := Bool.eq_false_iff.mpr hdv
            rw [merge_cons_dict_nondict dv0 rest hu hg hd] at h
            exact Option.noConfusion h
        · have hd : isDict uv = false := Bool.eq_false_iff.mpr hpd
          rw [merge_cons_nondict dv0 rest hu hd] at h
          exact ih _ _ h key hrest

/-- The `"grid"` entry of the user dictionary is never modified by the
merge: a user-supplied grid section survives exactly as given. -/
theorem merge_grid_atomic : ∀ (d u r : PDict) (G : PVal),
    merge_user_and_default_params u d = some r →
    lookupKV u "grid" = some G → lookupKV r "grid" = some G := by
  intro d
  induction d with
  | nil =>
    intro u r G h hG
    rw [merge_nil] at h
    injection h with h
    subst h
    exact hG
  | cons p rest ih =>
    intro u r G h hG
    obtain ⟨k0, dv0⟩ := p
    cases hu : lookupKV u k0 with
    | none =>
      rw [merge_cons_absent dv0 rest hu] at h
      exact ih _ _ _ h (lookupKV_append_some hG _)
    | some uv =>
      by_cases hg : k0 = "grid"
      · subst hg
        rw [merge_cons_grid dv0 rest hu] at h
        exact ih _ _ _ h hG
      · by_cases hpd : isDict uv = true
        · have hex : ∃ w, uv = PVal.pdict w := by
            cases uv <;> first | exact ⟨_, rfl⟩ | simp [isDict] at hpd
          obtain ⟨ud, rfl⟩ := hex
          by_cases hdv : isDict dv0 = true
          · have hex2 : ∃ w, dv0 = PVal.pdict w := by
              cases dv0 <;> first | exact ⟨_, rfl⟩ | simp [isDict] at hdv
            obtain ⟨dd, rfl⟩ := hex2
            rw [merge_cons_dict_dict dd rest hu hg] at h
            cases hm : merge_user_and_default_params ud dd with
            | none =>
              rw [hm] at h
              exact Option.noConfusion h
            | some m =>
              rw [hm] at h
              refine ih _ _ _ h ?_
              rw [lookupKV_setKey_ne _ hg]
              exact hG
          · have hd : isDict dv0 = false := Bool.eq_false_iff.mpr hdv
            rw [merge_cons_dict_nondict dv0 rest hu hg hd] at h
            exact Option.noConfusion h
        · have hd : isDict uv = false := Bool.eq_false_iff.mpr hpd
          rw [merge_cons_nondict dv0 rest hu hd] at h
          exact ih _ _ _ h hG

theorem getPath_single (l : PDict) (k : String) : getPath l [k] = lookupKV l k := rfl

theorem getPath_two (l : PDict) (k k2 : String) (r2 : List String) :
    getPath l (k :: k2 :: r2) =
      match lookupKV l k with
      | some (PVal.pdict w) => getPath w (k2 :: r2)
      | _ => none := rfl

/-- Enlarging a dictionary so that every present key keeps its value
preserves every path into it. -/
theorem getPath_mono (u u' : PDict)
    (hpres : ∀ k v, lookupKV u k = some v → lookupKV u' k = some v) :
    ∀ path v, getPath u path = some v → getPath u' path = some v := by
  intro path v h
  cases path with
  | nil => simp [getPath] at h
  | cons k rest =>
    cases rest with
    | nil =>
      rw [getPath_single] at h ⊢
      exact hpres _ _ h
    | cons k2 r2 =>
      rw [getPath_two] at h ⊢
      cases hu : lookupKV u k with
      | none => rw [hu] at h; exact Option.noConfusion h
      | some w =>
        rw [hu] at h
        rw [hpres _ _ hu]
        cases w with
        | pdict ww => exact h
        | _ => exact Option.noConfusion h

/-- Replacing the value of one key does not disturb paths that start at
a different key. -/
theorem getPath_setKey_ne (u : PDict) {k0 kh : String} (hne : k0 ≠ kh)
    (x : PVal) (tl : List String) :
    getPath (setKey u k0 x) (kh :: tl) = getPath u (kh :: tl) := by
  cases tl with
  | nil => rw [getPath_single, getPath_single, lookupKV_setKey_ne _ hne]
  | cons k2 t2 => rw [getPath_two, getPath_two, lookupKV_setKey_ne _ hne]

/-- Core of the non-destructiveness property: a successful merge leaves
every leaf (non-dictionary value) reachable in the user dictionary
before the merge at exactly its old value. -/
theorem merge_leaf_aux : ∀ (n : ℕ) (d : PDict), sizeOf d ≤ n → ∀ (u r : PDict),
    merge_user_and_default_params u d = some r →
    ∀ (path : List String) (v : PVal),
    getPath u path = some v → isDict v = false → getPath r path = some v := by
  intro n
  induction n with
  | zero =>
    intro d hd
    exact absurd hd (by cases d <;> simp)
  | succ n ih =>
    intro d hd u r h path v hpath hleaf
    cases d with
    | nil =>
      rw [merge_nil] at h
      injection h with h
      subst h
      exact hpath
    | cons p rest =>
      obtain ⟨k0, dv0⟩ := p
      have hrest_size : sizeOf rest ≤ n := by
        simp_arith at hd
        omega
      cases hu : lookupKV u k0 with
      | none =>
        rw [merge_cons_absent dv0 rest hu] at h
        refine ih rest hrest_size _ _ h path v ?_ hleaf
        exact getPath_mono u (u ++ [(k0, dv0)])
          (fun k w hkv => lookupKV_append_some hkv _) path v hpath
      | some uv =>
        by_cases hg : k0 = "grid"
        · subst hg
          rw [merge_cons_grid dv0 rest hu] at h
          exact ih rest hrest_size _ _ h path v hpath hleaf
        · by_cases hpd : isDict uv = true
          · obtain ⟨ud, rfl⟩ : ∃ w, uv = PVal.pdict w := by
              cases uv <;> first | exact ⟨_, rfl⟩ | simp [isDict] at hpd
            by_cases hdv : isDict dv0 = true
            · obtain ⟨dd, rfl⟩ : ∃ w, dv0 = PVal.pdict w := by
                cases dv0 <;> first | exact ⟨_, rfl⟩ | simp [isDict] at hdv
              rw [merge_cons_dict_dict dd rest hu hg] at h
              cases hm : merge_user_and_default_params ud dd with
              | none => rw [hm] at h; exact Option.noConfusion h
              | some m =>
                rw [hm] at h
                have hdd_size : sizeOf dd ≤ n := by
                  simp_arith at hd
                  omega
                refine ih rest hrest_size _ _ h path v ?_ hleaf
                cases path with
                | nil => simp [getPath] at hpath
                | cons kh tl =>
                  by_cases hkh : kh = k0
                  · subst hkh
                    cases tl with
                    | nil =>
                      rw [getPath_single] at hpath
                      rw [hu] at hpath
                      injection hpath with hv
                      subst hv
                      simp [isDict] at hleaf
                    | cons k2 t2 =>
                      rw [getPath_two] at hpath ⊢
                      rw [hu] at hpath
                      rw [lookupKV_setKey_self hu _]
                      exact ih dd hdd_size _ _ hm (k2 :: t2) v hpath hleaf
                  · have hne : k0 ≠ kh := fun hh => hkh hh.symm
                    rw [getPath_setKey_ne u hne _ tl]
                    exact hpath
            · have hd0 : isDict dv0 = false := Bool.eq_false_iff.mpr hdv
              rw [merge_cons_dict_nondict dv0 rest hu hg hd0] at h
              exact Option.noConfusion h
          · have hd0 : isDict uv = false := Bool.eq_false_iff.mpr hpd
            rw [merge_cons_nondict dv0 rest hu hd0] at h
            exact ih rest hrest_size _ _ h path v hpath hleaf

theorem merge_fullyPopulated_aux : ∀ (n : ℕ) (d : PDict), sizeOf d ≤ n →
    ∀ (u : PDict), fullyPopulated u d = true →
    merge_user_and_default_params u d = some u := by
  intro n
  induction n with
  | zero =>
    intro d hd
    exact absurd hd (by cases d <;> simp)
  | succ n ih =>
    intro d hd u hp
    cases d with
    | nil => exact merge_nil u
    | cons p rest =>
      obtain ⟨k0, dv0⟩ := p
      have hrest_size : sizeOf rest ≤ n := by
        simp_arith at hd
        omega
      rw [fullyPopulated.eq_2, Bool.and_eq_true] at hp
      obtain ⟨hp1, hp2⟩ := hp
      cases hu : lookupKV u k0 with
      | none =>
        simp only [hu] at hp1
        exact Bool.noConfusion hp1
      | some uv =>
        by_cases hg : k0 = "grid"
        · subst hg
          rw [merge_cons_grid dv0 rest hu]
          exact ih rest hrest_size u hp2
        · simp only [hu, if_neg hg] at hp1
          by_cases hpd : isDict uv = true
          · obtain ⟨ud, rfl⟩ : ∃ w, uv = PVal.pdict w := by
              cases uv <;> first | exact ⟨_, rfl⟩ | simp [isDict] at hpd
            obtain ⟨dd, rfl⟩ : ∃ w, dv0 = PVal.pdict w := by
              cases dv0 <;> first | exact ⟨_, rfl⟩ | simp at hp1
            simp only [] at hp1
            have hdd_size : sizeOf dd ≤ n := by
              simp_arith at hd
              omega
            rw [merge_cons_dict_dict dd rest hu hg, ih dd hdd_size ud hp1]
            show merge_user_and_default_params (setKey u k0 (PVal.pdict ud)) rest = some u
            rw [setKey_lookup_id hu]
            exact ih rest hrest_size u hp2
          · have hd0 : isDict uv = false := Bool.eq_false_iff.mpr hpd
            rw [merge_cons_nondict dv0 rest hu hd0]
            exact ih rest hrest_size u hp2

/-- Merging a concatenation of defaults processes the first block and
then the second on the intermediate result. -/
theorem merge_append : ∀ (d1 d2 u : PDict),
    merge_user_and_default_params u (d1 ++ d2) =
      (merge_user_and_default_params u d1).bind
        (fun u1 => merge_user_and_default_params u1 d2) := by
  intro d1
  induction d1 with
  | nil =>
    intro d2 u
    simp [merge_nil]
  | cons p rest ih =>
    intro d2 u
    obtain ⟨k0, dv0⟩ := p
    rw [List.cons_append]
    cases hu : lookupKV u k0 with
    | none =>
      rw [merge_cons_absent dv0 _ hu, merge_cons_absent dv0 rest hu, ih]
    | some uv =>
      by_cases hg : k0 = "grid"
      · subst hg
        rw [merge_cons_grid dv0 _ hu, merge_cons_grid dv0 rest hu, ih]
      · by_cases hpd : isDict uv = true
        · obtain ⟨ud, rfl⟩ : ∃ w, uv = PVal.pdict w := by
            cases uv <;> first | exact ⟨_, rfl⟩ | simp [isDict] at hpd
          by_cases hdv : isDict dv0 = true
          · obtain ⟨dd, rfl⟩ : ∃ w, dv0 = PVal.pdict w := by
              cases dv0 <;> first | exact ⟨_, rfl⟩ | simp [isDict] at hdv
            rw [merge_cons_dict_dict dd _ hu hg, merge_cons_dict_dict dd rest hu hg]
            cases hm : merge_user_and_default_params ud dd with
            | none => rfl
            | some m => exact ih d2 (setKey u k0 (PVal.pdict m))
          · have hd0 : isDict dv0 = false := Bool.eq_false_iff.mpr hdv
            rw [merge_cons_dict_nondict dv0 _ hu hg hd0,
              merge_cons_dict_nondict dv0 rest hu hg hd0]
            rfl
        · have hd0 : isDict uv = false := Bool.eq_false_iff.mpr hpd
          rw [merge_cons_nondict dv0 _ hu hd0, merge_cons_nondict dv0 rest hu hd0, ih]

theorem lookupKV_some_split {α : Type} : ∀ (l : List (String × α)) (k : String) (v : α),
    lookupKV l k = some v →
    ∃ l1 l2, l = l1 ++ (k, v) :: l2 ∧ lookupKV l1 k = none := by
  intro l
  induction l with
  | nil =>
    intro k v h
    simp [lookupKV] at h
  | cons p rest ih =>
    intro k v h
    obtain ⟨k0, v0⟩ := p
    by_cases hk : k0 = k
    · subst hk
      simp [lookupKV] at h
      subst h
      exact ⟨[], rest, rfl, by simp [lookupKV]⟩
    · simp [lookupKV, hk] at h
      obtain ⟨l1, l2, rfl, hl1⟩ := ih k v h
      exact ⟨(k0, v0) :: l1, l2, rfl, by simp [lookupKV, hk, hl1]⟩

/-- Locate the processing step of key `k` inside a successful merge:
the merge up to `k` yields an intermediate dictionary `u1` whose entry
at `k` is still the original user entry, and the rest of the merge
starts with the `(k, dv)` step followed by defaults that do not mention
`k` again. -/
theorem merge_key_step (u d r : PDict) (k : String) (dv : PVal)
    (hm : merge_user_and_default_params u d = some r)
    (hnd : (d.map Prod.fst).Nodup)
    (hdk : lookupKV d k = some dv) :
    ∃ u1 d2, lookupKV u1 k = lookupKV u k ∧ lookupKV d2 k = none ∧
      merge_user_and_default_params u1 ((k, dv) :: d2) = some r := by
  obtain ⟨d1, d2, rfl, hd1⟩ := lookupKV_some_split d k dv hdk
  rw [List.map_append, List.map_cons] at hnd
  have hnd2 : k ∉ d2.map Prod.fst := by
    have h2 := hnd.of_append_right
    rw [List.nodup_cons] at h2
    exact h2.1
  have hd2 : lookupKV d2 k = none := lookupKV_eq_none_of_not_mem hnd2
  rw [merge_append] at hm
  cases h1 : merge_user_and_default_params u d1 with
  | none =>
    rw [h1, Option.none_bind] at hm
    exact Option.noConfusion hm
  | some u1 =>
    rw [h1, Option.some_bind] at hm
    exact ⟨u1, d2, merge_frame d1 u u1 h1 k hd1, hd2, hm⟩

/-- C5 counterexample.  The claim states that when a key is present in
both dictionaries but the two values are not both mappings, the user
value is left untouched with no merge and no error; for
`user_params = a: (x: 1)` and `default_params = a: 2` (user value a
mapping, default value not) it therefore predicts the result
`some user_params`.  The code instead recurses into
`merge_user_and_default_params(user_params["a"], 2)`, which calls
`.keys()` on the integer `2` and raises `AttributeError` — the merge
produces no result at all. -/
theorem c5_counterexample_nondict_default :
    merge_user_and_default_params
      [("a", PVal.pdict [("x", PVal.num 1)])] [("a", PVal.num 2)] = none := by
  simp [merge_user_and_default_params, lookupKV]

/-- C5 (amended).  For a merge that returns (`hm`) with duplicate-free
default keys, every key `k` obeys the contract of
`merge_user_and_default_params` with the recursion guard as the code
has it: (1) keys the defaults do not mention keep their user value;
(2) a key absent from the user dictionary receives the default value;
(3) a key whose user value is not a mapping is left untouched;
(4) the key `"grid"` is left untouched; (5) a non-`"grid"` key whose
user value is a mapping recurses into the user and default values when
the default value is also a mapping, storing the recursive result;
(6) a non-`"grid"` key whose user value is a mapping but whose default
value is not cannot occur in a successful merge — the code raises
`AttributeError` there (the recursion condition tests only the user
value, not both values as the claim stated). -/
theorem c5_merge_contract (u d r : PDict) (k : String)
    (hm : merge_user_and_default_params u d = some r)
    (hnd : (d.map Prod.fst).Nodup) :
    (lookupKV d k = none → lookupKV r k = lookupKV u k) ∧
    (∀ dv, lookupKV u k = none → lookupKV d k = some dv → lookupKV r k = some dv) ∧
    (∀ uv, lookupKV u k = some uv → isDict uv = false → lookupKV r k = some uv) ∧
    (∀ uv, lookupKV u k = some uv → k = "grid" → lookupKV r k = some uv) ∧
    (∀ ud dd, lookupKV u k = some (PVal.pdict ud) →
       lookupKV d k = some (PVal.pdict dd) → k ≠ "grid" →
       ∃ m, merge_user_and_default_params ud dd = some m ∧
         lookupKV r k = some (PVal.pdict m)) ∧
    (∀ ud dv, lookupKV u k = some (PVal.pdict ud) → lookupKV d k = some dv →
       isDict dv = false → k ≠ "grid" → False) := by
  refine ⟨fun hdk => merge_frame d u r hm k hdk, ?_, ?_, ?_, ?_, ?_⟩
  · intro dv hu hdk
    obtain ⟨u1, d2, hu1, hd2, hstep⟩ := merge_key_step u d r k dv hm hnd hdk
    rw [hu] at hu1
    rw [merge_cons_absent dv d2 hu1] at hstep
    rw [merge_frame d2 _ r hstep k hd2, lookupKV_append_none hu1]
    simp [lookupKV]
  · intro uv hu hd0
    cases hdk : lookupKV d k with
    | none => rw [merge_frame d u r hm k hdk, hu]
    | some dv =>
      obtain ⟨u1, d2, hu1, hd2, hstep⟩ := merge_key_step u d r k dv hm hnd hdk
      rw [hu] at hu1
      rw [merge_cons_nondict dv d2 hu1 hd0] at hstep
      rw [merge_frame d2 _ r hstep k hd2, hu1]
  · intro uv hu hgr
    subst hgr
    cases hdk : lookupKV d "grid" with
    | none => rw [merge_frame d u r hm _ hdk, hu]
    | some dv =>
      obtain ⟨u1, d2, hu1, hd2, hstep⟩ := merge_key_step u d r _ dv hm hnd hdk
      rw [hu] at hu1
      rw [merge_cons_grid dv d2 hu1] at hstep
      rw [merge_frame d2 _ r hstep _ hd2, hu1]
  · intro ud dd hu hdk hg
    obtain ⟨u1, d2, hu1, hd2, hstep⟩ := merge_key_step u d r k (PVal.pdict dd) hm hnd hdk
    rw [hu] at hu1
    rw [merge_cons_dict_dict dd d2 hu1 hg] at hstep
    cases hmm : merge_user_and_default_params ud dd with
    | none =>
      rw [hmm] at hstep
      exact Option.noConfusion hstep
    | some m =>
      rw [hmm] at hstep
      have hstep' : merge_user_and_default_params (setKey u1 k (PVal.pdict m)) d2 =
          some r := hstep
      refine ⟨m, rfl, ?_⟩
      rw [merge_frame d2 _ r hstep' k hd2]
      exact lookupKV_setKey_self hu1 _
  · intro ud dv hu hdk hd0 hg
    obtain ⟨u1, d2, hu1, hd2, hstep⟩ := merge_key_step u d r k dv hm hnd hdk
    rw [hu] at hu1
    rw [merge_cons_dict_nondict dv d2 hu1 hg hd0] at hstep
    exact Option.noConfusion hstep

/-- Witness for `c5_merge_contract`, at the example of the source
docstring: the default key `"b"` (absent from the user dictionary) is
copied in by the merge. -/
theorem c5_merge_contract_witness :
    lookupKV
      [("a", PVal.num 1), ("d", PVal.pdict [("da", PVal.num 4), ("db", PVal.num 6)]),
       ("e", PVal.num 5), ("grid", PVal.pdict [("RasterModelGrid", PVal.plist [])]),
       ("b", PVal.num 3)] "b" = some (PVal.num 3) :=
  ((c5_merge_contract
      [("a", PVal.num 1), ("d", PVal.pdict [("da", PVal.num 4)]), ("e", PVal.num 5),
       ("grid", PVal.pdict [("RasterModelGrid", PVal.plist [])])]
      [("a", PVal.num 2), ("b", PVal.num 3), ("d", PVal.pdict [("db", PVal.num 6)]),
       ("grid", PVal.pdict [("HexModelGrid", PVal.plist [])])]
      [("a", PVal.num 1), ("d", PVal.pdict [("da", PVal.num 4), ("db", PVal.num 6)]),
       ("e", PVal.num 5), ("grid", PVal.pdict [("RasterModelGrid", PVal.plist [])]),
       ("b", PVal.num 3)]
      "b" (by simp [merge_user_and_default_params, lookupKV, setKey])
      (by simp)).2.1 (PVal.num 3) rfl rfl)

/-- C6.  A successful merge is non-destructive — every leaf
(non-dictionary value) present in the user configuration before the
merge is still there, unchanged, at the same path afterwards — and the
`"grid"` section is atomic: a user-supplied `"grid"` entry survives
exactly as given, with no default grid keys injected. -/
theorem c6_merge_nondestructive_grid_atomic (u d r : PDict)
    (hm : merge_user_and_default_params u d = some r) :
    (∀ (path : List String) (v : PVal), getPath u path = some v →
       isDict v = false → getPath r path = some v) ∧
    (∀ G, lookupKV u "grid" = some G → lookupKV r "grid" = some G) :=
  ⟨fun path v hp hl => merge_leaf_aux (sizeOf d) d le_rfl u r hm path v hp hl,
   fun G hG => merge_grid_atomic d u r G hm hG⟩

/-- Witness for `c6_merge_nondestructive_grid_atomic`, at the example
of the source docstring: the nested user leaf at path `d.da` and the
whole user `"grid"` section survive the merge unchanged. -/
theorem c6_merge_nondestructive_grid_atomic_witness :
    getPath
      [("a", PVal.num 1), ("d", PVal.pdict [("da", PVal.num 4), ("db", PVal.num 6)]),
       ("e", PVal.num 5), ("grid", PVal.pdict [("RasterModelGrid", PVal.plist [])]),
       ("b", PVal.num 3)] ["d", "da"] = some (PVal.num 4) ∧
    lookupKV
      [("a", PVal.num 1), ("d", PVal.pdict [("da", PVal.num 4), ("db", PVal.num 6)]),
       ("e", PVal.num 5), ("grid", PVal.pdict [("RasterModelGrid", PVal.plist [])]),
       ("b", PVal.num 3)] "grid" =
      some (PVal.pdict [("RasterModelGrid", PVal.plist [])]) :=
  ⟨(c6_merge_nondestructive_grid_atomic
      [("a", PVal.num 1), ("d", PVal.pdict [("da", PVal.num 4)]), ("e", PVal.num 5),
       ("grid", PVal.pdict [("RasterModelGrid", PVal.plist [])])]
      [("a", PVal.num 2), ("b", PVal.num 3), ("d", PVal.pdict [("db", PVal.num 6)]),
       ("grid", PVal.pdict [("HexModelGrid", PVal.plist [])])]
      [("a", PVal.num 1), ("d", PVal.pdict [("da", PVal.num 4), ("db", PVal.num 6)]),
       ("e", PVal.num 5), ("grid", PVal.pdict [("RasterModelGrid", PVal.plist [])]),
       ("b", PVal.num 3)]
      (by simp [merge_user_and_default_params, lookupKV, setKey])).1
     ["d", "da"] (PVal.num 4) rfl rfl,
   (c6_merge_nondestructive_grid_atomic
      [("a", PVal.num 1), ("d", PVal.pdict [("da", PVal.num 4)]), ("e", PVal.num 5),
       ("grid", PVal.pdict [("RasterModelGrid", PVal.plist [])])]
      [("a", PVal.num 2), ("b", PVal.num 3), ("d", PVal.pdict [("db", PVal.num 6)]),
       ("grid", PVal.pdict [("HexModelGrid", PVal.plist [])])]
      [("a", PVal.num 1), ("d", PVal.pdict [("da", PVal.num 4), ("db", PVal.num 6)]),
       ("e", PVal.num 5), ("grid", PVal.pdict [("RasterModelGrid", PVal.plist [])]),
       ("b", PVal.num 3)]
      (by simp [merge_user_and_default_params, lookupKV, setKey])).2
     (PVal.pdict [("RasterModelGrid", PVal.plist [])]) rfl⟩

/-- C7 counterexample.  For `user_params = b: (empty dict)` and
`default_params = b: "x"` the user configuration already contains every
default key at every nesting level (there is only the key `"b"` and the
defaults nest nothing beneath it), so the claim predicts a no-op:
result `some user_params`.  The code instead recurses into the user's
dict value, calls `.keys()` on the default string `"x"` and raises
`AttributeError` — no result at all. -/
theorem c7_counterexample_not_idempotent :
    merge_user_and_default_params [("b", PVal.pdict [])] [("b", PVal.str "x")] = none := by
  simp [merge_user_and_default_params, lookupKV]

/-- C7 (amended).  Merging is idempotent on fully-populated
configurations provided the population condition also respects the
code's recursion guard: every default key is present in the user
configuration at every nesting level at which the merge recurses, and
wherever the user value at a shared non-grid key is a mapping the
default value is a mapping too.  Under `fullyPopulated` the merge
returns the user configuration unchanged. -/
theorem c7_merge_idempotent_on_populated (u d : PDict)
    (h : fullyPopulated u d = true) :
    merge_user_and_default_params u d = some u :=
  merge_fullyPopulated_aux (sizeOf d) d le_rfl u h

/-- Witness for `c7_merge_idempotent_on_populated`: a configuration
containing every default key (with a scalar, a grid section and a
nested section) is returned unchanged. -/
theorem c7_merge_idempotent_on_populated_witness :
    merge_user_and_default_params
      [("a", PVal.num 1), ("grid", PVal.pdict []),
       ("c", PVal.pdict [("x", PVal.num 2)])]
      [("a", PVal.num 7), ("grid", PVal.pdict [("z", PVal.num 9)]),
       ("c", PVal.pdict [("x", PVal.num 5)])] =
      some
        [("a", PVal.num 1), ("grid", PVal.pdict []),
         ("c", PVal.pdict [("x", PVal.num 2)])] :=
  c7_merge_idempotent_on_populated
    [("a", PVal.num 1), ("grid", PVal.pdict []),
     ("c", PVal.pdict [("x", PVal.num 2)])]
    [("a", PVal.num 7), ("grid", PVal.pdict [("z", PVal.num 9)]),
     ("c", PVal.pdict [("x", PVal.num 5)])]
    (by simp [fullyPopulated, lookupKV])

/-! Lemmas about the sub-stepping loop. -/

theorem update_until_loop_done (fuel : ℕ) (s : SchedState) (remaining dt : ℚ)
    (h : ¬ 0 < remaining) : update_until_loop fuel s remaining dt = some (s, []) := by
  cases fuel <;> simp [update_until_loop, h]

theorem update_until_loop_nonpos_dt : ∀ (fuel : ℕ) (s : SchedState) (remaining dt : ℚ),
    0 < remaining → dt ≤ 0 → update_until_loop fuel s remaining dt = none := by
  intro fuel
  induction fuel with
  | zero =>
    intro s remaining dt h1 _
    simp [update_until_loop, h1]
  | succ n ih =>
    intro s remaining dt h1 h2
    have hd : min dt remaining = dt := min_eq_left (h2.trans h1.le)
    have hrec := ih (update s dt) (remaining - dt) dt (by linarith) h2
    simp [update_until_loop, h1, hd, hrec]

theorem update_until_loop_spec : ∀ (fuel : ℕ) (s : SchedState) (remaining dt : ℚ)
    (sf : SchedState) (steps : List ℚ),
    update_until_loop fuel s remaining dt = some (sf, steps) →
    sf.current_time = s.current_time + max remaining 0 ∧
    steps.sum = max remaining 0 ∧
    (∀ x ∈ steps, 0 < x ∧ x ≤ dt) ∧
    sf = { s with current_time := sf.current_time } := by
  intro fuel
  induction fuel with
  | zero =>
    intro s remaining dt sf steps h
    by_cases h1 : 0 < remaining
    · simp [update_until_loop, h1] at h
    · simp [update_until_loop, h1] at h
      obtain ⟨rfl, rfl⟩ := h
      have : max remaining 0 = 0 := max_eq_right (le_of_not_lt h1)
      simp [this]
  | succ n ih =>
    intro s remaining dt sf steps h
    by_cases h1 : 0 < remaining
    · simp only [update_until_loop, if_pos h1] at h
      by_cases h2 : dt ≤ 0
      · rw [update_until_loop_nonpos_dt n (update s (min dt remaining))
          (remaining - min dt remaining) (min dt remaining)
          (by
            have : min dt remaining = dt := min_eq_left (h2.trans h1.le)
            rw [this]
            linarith)
          (by
            have : min dt remaining = dt := min_eq_left (h2.trans h1.le)
            rw [this]
            exact h2)] at h
        exact Option.noConfusion h
      · push_neg at h2
        have hdpos : 0 < min dt remaining := lt_min h2 h1
        have hdler : min dt remaining ≤ remaining := min_le_right _ _
        have hdledt : min dt remaining ≤ dt := min_le_left _ _
        cases hrec : update_until_loop n (update s (min dt remaining))
            (remaining - min dt remaining) (min dt remaining) with
        | none =>
          rw [hrec] at h
          exact Option.noConfusion h
        | some p =>
          obtain ⟨sf', steps'⟩ := p
          rw [hrec] at h
          simp only [Option.some.injEq, Prod.mk.injEq] at h
          obtain ⟨rfl, rfl⟩ := h
          obtain ⟨ihc, ihs, ihb, ihf⟩ := ih _ _ _ _ _ hrec
          have hmax0 : max (remaining - min dt remaining) 0 =
              remaining - min dt remaining := max_eq_left (by linarith)
          have hmax1 : max remaining 0 = remaining := max_eq_left h1.le
          have hup : (update s (min dt remaining)).current_time =
              s.current_time + min dt remaining := rfl
          refine ⟨?_, ?_, ?_, ?_⟩
          · rw [ihc, hmax0, hmax1, hup]
            ring
          · rw [List.sum_cons, ihs, hmax0, hmax1]
            ring
          · intro x hx
            rcases List.mem_cons.mp hx with rfl | hx'
            · exact ⟨hdpos, hdledt⟩
            · obtain ⟨hx1, hx2⟩ := ihb x hx'
              exact ⟨hx1, hx2.trans hdledt⟩
          · exact ihf
    · simp [update_until_loop, h1] at h
      obtain ⟨rfl, rfl⟩ := h
      have : max remaining 0 = 0 := max_eq_right (le_of_not_lt h1)
      simp [this]

/-- C8.  Sub-stepping never overshoots a scheduled boundary.  First
part: when the configured `dt` exceeds the positive remaining distance
to the pause time, `update_until` invokes the physics update exactly
once, with the clamped step `t - current_time` (which is smaller than
the configured `dt`), closing the gap exactly.  Second part: whenever
the loop terminates it has closed the gap to zero — the final
`current_time` equals the pause time — with every individual update
step positive and bounded by the configured `dt`, their sum being the
original gap. -/
theorem c8_substep_clamped :
    (∀ (fuel : ℕ) (s : SchedState) (t dt : ℚ), 1 ≤ fuel →
       s.current_time < t → t - s.current_time < dt →
       update_until fuel s t dt =
         some ({ s with current_time := t }, [t - s.current_time])) ∧
    (∀ (fuel : ℕ) (s : SchedState) (t dt : ℚ) (sf : SchedState) (steps : List ℚ),
       update_until fuel s t dt = some (sf, steps) → s.current_time ≤ t →
       sf.current_time = t ∧ steps.sum = t - s.current_time ∧
       ∀ x ∈ steps, 0 < x ∧ x ≤ dt) := by
  constructor
  · intro fuel s t dt hfuel hlt hdt
    obtain ⟨m, rfl⟩ : ∃ m, fuel = m + 1 := ⟨fuel - 1, by omega⟩
    have hrem : 0 < t - s.current_time := by linarith
    have hd : min dt (t - s.current_time) = t - s.current_time :=
      min_eq_right hdt.le
    have hct : s.current_time + (t - s.current_time) = t := by ring
    simp [update_until, update_until_loop, hrem, hd, update, hct,
      update_until_loop_done]
  · intro fuel s t dt sf steps h hle
    unfold update_until at h
    obtain ⟨hc, hs, hb, _⟩ := update_until_loop_spec fuel s (t - s.current_time) dt sf steps h
    have hmax : max (t - s.current_time) 0 = t - s.current_time :=
      max_eq_left (by linarith)
    rw [hmax] at hc hs
    exact ⟨by rw [hc]; ring, hs, hb⟩

/-- Witness for `c8_substep_clamped`: with the clock at 0, a pause at
5 and `dt = 7` the single update step is the clamped remainder 5; with
`dt = 2` the loop takes steps 2, 2, 1 summing to the gap. -/
theorem c8_substep_clamped_witness :
    update_until 1 c2state 5 7 =
      some ({ c2state with current_time := 5 }, [5 - c2state.current_time]) ∧
    (({ c2state with current_time := (5:ℚ) }).current_time = 5 ∧
      ([(2:ℚ), 2, 1]).sum = 5 - c2state.current_time ∧
      ∀ x ∈ [(2:ℚ), 2, 1], 0 < x ∧ x ≤ 2) :=
  ⟨c8_substep_clamped.1 1 c2state 5 7 le_rfl (by norm_num [c2state])
      (by norm_num [c2state]),
   c8_substep_clamped.2 3 c2state 5 2 { c2state with current_time := 5 } [2, 2, 1]
      (by norm_num [update_until, update_until_loop, update, c2state, min_def])
      (by norm_num [c2state])⟩

/-- When the run loop returns normally, the final time has reached the
stop boundary; and if it is already reached at entry, the loop returns
at once with the state unchanged and no output fired. -/
theorem run_loop_ok : ∀ (fuel : ℕ) (s : SchedState) (stop dt : ℚ) (sf : SchedState)
    (evs : List OutEvent),
    run_loop fuel s stop dt = some (Except.ok (sf, evs)) →
    stop ≤ sf.current_time ∧ (¬ s.current_time < stop → sf = s ∧ evs = []) := by
  intro fuel
  induction fuel with
  | zero =>
    intro s stop dt sf evs h
    by_cases hlt : s.current_time < stop
    · simp [run_loop, hlt] at h
    · simp only [run_loop, if_neg hlt, Option.some.injEq, Except.ok.injEq,
        Prod.mk.injEq] at h
      obtain ⟨rfl, rfl⟩ := h
      exact ⟨le_of_not_lt hlt, fun _ => ⟨rfl, rfl⟩⟩
  | succ n ih =>
    intro s stop dt sf evs h
    by_cases hlt : s.current_time < stop
    · simp only [run_loop, if_pos hlt] at h
      split at h
      · simp at h
      · split at h
        · exact Option.noConfusion h
        · split at h
          · exact Option.noConfusion h
          · simp at h
          · rename_i p hrl
            simp only [Option.some.injEq, Except.ok.injEq, Prod.mk.injEq] at h
            obtain ⟨rfl, rfl⟩ := h
            exact ⟨(ih _ _ _ _ _ hrl).1, fun hc => absurd hlt hc⟩
    · simp only [run_loop, if_neg hlt, Option.some.injEq, Except.ok.injEq,
        Prod.mk.injEq] at h
      obtain ⟨rfl, rfl⟩ := h
      exact ⟨le_of_not_lt hlt, fun _ => ⟨rfl, rfl⟩⟩

/-- C4 counterexample.  From a state whose three triggers all sit at
100, `run(30, 10)` must, per the claim, stop at the boundary
30 + current_time = 30 and never exceed it.  The code instead sub-steps
all the way to the next scheduled pause at 100 — `update_until` is
called with `next_pause = 100` regardless of the stop boundary — and
returns with `current_time = 100 > 30`. -/
theorem c4_counterexample_overshoot :
    run 12 c4state 30 10 =
      some (Except.ok (c4final,
        [OutEvent.report 100, OutEvent.plot 100, OutEvent.save 100 1])) ∧
    30 + c4state.current_time < c4final.current_time := by
  constructor
  · norm_num [run, run_loop, update_until, update_until_loop, update,
      fire_triggers, c4state, c4final, min_def]
  · norm_num [c4state, c4final]

/-- C4 (amended).  When `run(D, dt)` returns normally, `current_time`
has reached the stop boundary (entry time + D) — the loop takes no new
iteration once the boundary is reached, and with `D ≤ 0` it returns at
once with the state unchanged and nothing fired — but the final
sub-stepping may overshoot the boundary: `current_time` after return
can strictly exceed it (it lands on the scheduled pause targeted by the
last iteration), as the counterexample shows. -/
theorem c4_run_reaches_stop_boundary (fuel : ℕ) (s : SchedState) (D dt : ℚ)
    (sf : SchedState) (evs : List OutEvent)
    (h : run fuel s D dt = some (Except.ok (sf, evs))) :
    s.current_time + D ≤ sf.current_time ∧ (D ≤ 0 → sf = s ∧ evs = []) := by
  unfold run at h
  obtain ⟨h1, h2⟩ := run_loop_ok fuel s (D + s.current_time) dt sf evs h
  exact ⟨by linarith, fun hD => h2 (by simp; linarith)⟩

/-- Witness for `c4_run_reaches_stop_boundary` at the overshoot run:
the returned time 100 indeed lies at or beyond the boundary 0 + 30. -/
theorem c4_run_reaches_stop_boundary_witness :
    c4state.current_time + 30 ≤ c4final.current_time ∧
    ((30 : ℚ) ≤ 0 → c4final = c4state ∧
      ([OutEvent.report 100, OutEvent.plot 100, OutEvent.save 100 1] :
        List OutEvent) = []) :=
  c4_run_reaches_stop_boundary 12 c4state 30 10 c4final
    [OutEvent.report 100, OutEvent.plot 100, OutEvent.save 100 1]
    (by norm_num [run, run_loop, update_until, update_until_loop, update,
      fire_triggers, c4state, c4final, min_def])

/-- Because the save branch of `run` never advances `next_save`, a
state whose save trigger sits at 10 with the clock at or before 10
(plot and report triggers at 50) makes the run loop spin forever: every
iteration pauses at 10, fires the save action again, and never moves
the clock past 10.  No amount of fuel lets `run_loop` terminate. -/
theorem run_loop_save_stall : ∀ (n : ℕ) (s : SchedState),
    0 ≤ s.current_time → s.current_time ≤ 10 → s.next_plot = 50 →
    s.next_save = 10 → s.next_report = some 50 → run_loop n s 30 10 = none := by
  intro n
  induction n with
  | zero =>
    intro s _ hc hp hs hr
    have h30 : s.current_time < 30 := by linarith
    simp [run_loop, h30]
  | succ n ih =>
    intro s hc0 hc hp hs hr
    have h30 : s.current_time < 30 := by linarith
    have hpause : min (min s.next_plot s.next_save) (50 : ℚ) = 10 := by
      rw [hp, hs]
      norm_num [min_def]
    obtain ⟨st, huu⟩ : ∃ st, update_until (n + 1) s
        (min (min s.next_plot s.next_save) 50) 10 =
        some ({ s with current_time := 10 }, st) := by
      rw [hpause]
      unfold update_until
      by_cases hlt : 0 < 10 - s.current_time
      · refine ⟨[10 - s.current_time], ?_⟩
        have hd : min 10 (10 - s.current_time) = 10 - s.current_time :=
          min_eq_right (by linarith)
        have hct : s.current_time + (10 - s.current_time) = 10 := by ring
        simp [update_until_loop, hlt, hd, update, hct, update_until_loop_done]
      · refine ⟨[], ?_⟩
        rw [update_until_loop_done _ _ _ _ hlt]
        have hceq : s.current_time = 10 := by
          push_neg at hlt
          linarith
        have hse : { s with current_time := (10 : ℚ) } = s := by
          rw [← hceq]
        rw [hse]
    have hft : fire_triggers 50 ({ s with current_time := (10 : ℚ) }) =
        ({ s with current_time := 10, save_num := s.save_num + 1 },
         [OutEvent.save 10 (s.save_num + 1)]) := by
      norm_num [fire_triggers, hp, hs]
    have hrec : run_loop n
        ({ s with current_time := (10 : ℚ), save_num := s.save_num + 1 }) 30 10 =
        none :=
      ih _ (by norm_num) (by norm_num) (by simp [hp]) (by simp [hs]) (by simp [hr])
    simp only [run_loop, if_pos h30, hr]
    simp only [huu]
    simp only [hft]
    simp only [hrec]

/-- C2 (code bug).  Part 1: `setup_for_output` does initialize
`next_plot = plot_interval` and `next_save = save_interval`, but it —
and `setup_run_control`, the only other initialization code — leaves
`next_report` exactly as it was: no code path assigns it, so there is
no initial `next_report = report_interval` (reading it in `run` is an
`AttributeError`).  Part 2: because the save branch of `run` never
advances `next_save`, a run of duration 30 with save interval 10 from
`c2state` (triggers as the spec intends them, `next_report` given the
value 50 counterfactually) never terminates for any fuel — the save
trigger re-fires at time 10 forever instead of firing D/I = 3 times.
Part 3: the plot trigger alone, whose branch does advance its
schedule, behaves exactly as the claim describes: duration 30 at
interval 10 yields plot firings at 10, 20, 30. -/
theorem c2_scheduler_triggers_bug :
    (∀ (pi si : ℚ) (nd : ℕ) (sn : String) (s : SchedState),
       (setup_for_output pi si nd sn s).next_plot = pi ∧
       (setup_for_output pi si nd sn s).next_save = si ∧
       (setup_for_output pi si nd sn s).next_report = s.next_report ∧
       (∀ rd dtv st : ℚ,
         (setup_run_control rd dtv st s).next_report = s.next_report)) ∧
    (∀ fuel : ℕ, run fuel c2state 30 10 = none) ∧
    run 5 c2plotstate 30 10 =
      some (Except.ok ({ c2plotstate with current_time := 30, next_plot := 40 },
        [OutEvent.plot 10, OutEvent.plot 20, OutEvent.plot 30])) := by
  refine ⟨fun pi si nd sn s => ⟨rfl, rfl, rfl, fun rd dtv st => rfl⟩, ?_, ?_⟩
  · intro fuel
    unfold run
    have hstop : (30 : ℚ) + c2state.current_time = 30 := by norm_num [c2state]
    rw [hstop]
    exact run_loop_save_stall fuel c2state (by norm_num [c2state])
      (by norm_num [c2state]) rfl rfl rfl
  · norm_num [run, run_loop, update_until, update_until_loop, update,
      fire_triggers, c2plotstate, min_def]

/-- C1 (code bug).  The claim says that with an empty user
configuration the defaults are merged in and construction succeeds.
In the code, `BigantrLEM.__main__` passes `{}` straight to the
constructor, `merge_user_and_default_params` is never invoked by any
initialization path, and `LandlabModel.__init__` immediately evaluates
`params["grid"]` — so construction raises `KeyError('grid')` for every
grid factory.  Moreover, even handing the constructor the fully
populated `DEFAULT_PARAMS` does not let construction succeed: it then
fails at the undefined method `setup_fields`. -/
theorem c1_empty_config_construction_fails :
    (∀ cg lg : PVal → Except PyError ℕ,
       BigantrLEM_init cg lg (PVal.pdict []) =
         Except.error (PyError.keyError "grid")) ∧
    BigantrLEM_init cgStub cgStub (PVal.pdict BigantrLEM_DEFAULT_PARAMS) =
      Except.error (PyError.attributeError "setup_fields") :=
  ⟨fun _ _ => rfl, rfl⟩

/-- C3 counterexample.  The claim says construction fails with an
attribute-lookup error for every parameter dictionary.  For the
parameter dictionary whose grid source is `"grid_object"` with a string
instead of a grid, construction fails earlier, inside `setup_grid`,
with `ValueError` — which is not an attribute-lookup error. -/
theorem c3_counterexample_value_error :
    BigantrLEM_init cgStub cgStub
      (PVal.pdict [("grid", PVal.pdict
        [("source", PVal.str "grid_object"),
         ("grid_object", PVal.str "spam")])]) = Except.error PyError.valueError ∧
    isAttributeError PyError.valueError = false :=
  ⟨rfl, rfl⟩

/-- C3 (amended).  For every parameter dictionary and every behaviour
of the external grid factories, construction of a `BigantrLEM` (and of
a `LandlabModel`) fails before `run()` can ever be invoked — it never
returns normally; and whenever the grid phase itself succeeds, the
failure is precisely the attribute lookup of the undefined method
`setup_fields` (with ill-formed grid parameters the failure can instead
be the earlier `KeyError`/`TypeError`/`ValueError` from the grid
phase, as the counterexample shows). -/
theorem c3_construction_always_fails (cg lg : PVal → Except PyError ℕ)
    (params : PVal) :
    (∀ u : Unit, BigantrLEM_init cg lg params ≠ Except.ok u) ∧
    (∀ (gp : PVal) (og : Option ℕ), getItem params "grid" = Except.ok gp →
       setup_grid cg lg gp = Except.ok og →
       BigantrLEM_init cg lg params =
         Except.error (PyError.attributeError "setup_fields")) := by
  constructor
  · intro u h
    unfold BigantrLEM_init LandlabModel_init at h
    cases hg : getItem params "grid" with
    | error e => simp [hg] at h
    | ok gp =>
      simp only [hg] at h
      cases hs : setup_grid cg lg gp with
      | error e => simp [hs] at h
      | ok og => simp [hs] at h
  · intro gp og hg hs
    simp only [BigantrLEM_init, LandlabModel_init, hg, hs]

/-- Witness for `c3_construction_always_fails`: with a well-formed
grid-object configuration the grid phase succeeds and construction
fails exactly at the `setup_fields` attribute lookup. -/
theorem c3_construction_always_fails_witness :
    BigantrLEM_init cgStub cgStub
      (PVal.pdict [("grid", PVal.pdict
        [("source", PVal.str "grid_object"),
         ("grid_object", PVal.grid 7)])]) =
      Except.error (PyError.attributeError "setup_fields") :=
  (c3_construction_always_fails cgStub cgStub
      (PVal.pdict [("grid", PVal.pdict
        [("source", PVal.str "grid_object"),
         ("grid_object", PVal.grid 7)])])).2
    (PVal.pdict [("source", PVal.str "grid_object"),
      ("grid_object", PVal.grid 7)])
    (some 7) rfl rfl

/-- C10.  With grid source `"grid_object"`: a caller-supplied grid
instance is accepted directly as the model grid; any non-grid value
(the embedding's `isGridVal v = false`, e.g. a string) makes
`setup_grid` — and hence model construction, which calls it as its
first step — fail with the invalid-argument error the source raises
(`ValueError`), before any simulation step can run. -/
theorem c10_grid_object_dispatch (cg lg : PVal → Except PyError ℕ) (gp : PVal) :
    (∀ g : ℕ, getItem gp "source" = Except.ok (PVal.str "grid_object") →
       getItem gp "grid_object" = Except.ok (PVal.grid g) →
       setup_grid cg lg gp = Except.ok (some g)) ∧
    (∀ v : PVal, getItem gp "source" = Except.ok (PVal.str "grid_object") →
       getItem gp "grid_object" = Except.ok v → isGridVal v = false →
       setup_grid cg lg gp = Except.error PyError.valueError) ∧
    (∀ (params v : PVal), getItem params "grid" = Except.ok gp →
       getItem gp "source" = Except.ok (PVal.str "grid_object") →
       getItem gp "grid_object" = Except.ok v → isGridVal v = false →
       BigantrLEM_init cg lg params = Except.error PyError.valueError) := by
  have h2 : ∀ v : PVal, getItem gp "source" = Except.ok (PVal.str "grid_object") →
      getItem gp "grid_object" = Except.ok v → isGridVal v = false →
      setup_grid cg lg gp = Except.error PyError.valueError := by
    intro v hsrc hobj hnv
    cases v <;>
      first
        | (simp [setup_grid, hsrc, hobj]; done)
        | simp [isGridVal] at hnv
  refine ⟨?_, h2, ?_⟩
  · intro g hsrc hobj
    simp [setup_grid, hsrc, hobj]
  · intro params v hgp hsrc hobj hnv
    simp only [BigantrLEM_init, LandlabModel_init, hgp, h2 v hsrc hobj hnv]

/-- Witness for `c10_grid_object_dispatch`: a supplied grid instance is
accepted directly, and a boolean in its place aborts construction with
`ValueError`. -/
theorem c10_grid_object_dispatch_witness :
    setup_grid cgStub cgStub
      (PVal.pdict [("source", PVal.str "grid_object"),
        ("grid_object", PVal.grid 3)]) = Except.ok (some 3) ∧
    BigantrLEM_init cgStub cgStub
      (PVal.pdict [("grid", PVal.pdict
        [("source", PVal.str "grid_object"),
         ("grid_object", PVal.pbool true)])]) = Except.error PyError.valueError :=
  ⟨(c10_grid_object_dispatch cgStub cgStub
      (PVal.pdict [("source", PVal.str "grid_object"),
        ("grid_object", PVal.grid 3)])).1 3 rfl rfl,
   (c10_grid_object_dispatch cgStub cgStub
      (PVal.pdict [("source", PVal.str "grid_object"),
        ("grid_object", PVal.pbool true)])).2.2
     (PVal.pdict [("grid", PVal.pdict
       [("source", PVal.str "grid_object"),
        ("grid_object", PVal.pbool true)])])
     (PVal.pbool true) rfl rfl rfl rfl⟩

/-- C9.  The field accessor is a get-or-create with idempotence: when
the field is absent it attaches and returns a zero-filled array of the
grid's node count; when it exists it returns the stored field and
leaves the grid untouched (no re-zeroing, whatever the stored data);
and a second call on the resulting grid returns exactly the same field
and grid as the first. -/
theorem c9_field_get_or_create (g : GridObj) (name dtype : String) :
    (lookupKV g.at_node name = none →
       (get_or_create_node_field g name dtype).1.data =
         List.replicate g.number_of_nodes 0 ∧
       get_or_create_node_field g name dtype =
         (⟨dtype, List.replicate g.number_of_nodes 0⟩, add_zeros g name dtype)) ∧
    (∀ f : NodeField, lookupKV g.at_node name = some f →
       get_or_create_node_field g name dtype = (f, g)) ∧
    get_or_create_node_field (get_or_create_node_field g name dtype).2 name dtype =
      get_or_create_node_field g name dtype := by
  refine ⟨?_, ?_, ?_⟩
  · intro h
    simp [get_or_create_node_field, h]
  · intro f h
    simp [get_or_create_node_field, h]
  · cases h : lookupKV g.at_node name with
    | some f => simp [get_or_create_node_field, h]
    | none =>
      simp only [get_or_create_node_field, h]
      have hlook : lookupKV (add_zeros g name dtype).at_node name =
          some ⟨dtype, List.replicate g.number_of_nodes 0⟩ := by
        simp [add_zeros, lookupKV_append_none h, lookupKV]
      simp [hlook]

/-- Witness for `c9_field_get_or_create`: on a fresh three-node grid
the accessor returns the all-zero array of length three. -/
theorem c9_field_get_or_create_witness :
    (get_or_create_node_field ⟨3, []⟩ "topographic__elevation" "float64").1.data =
      List.replicate 3 0 :=
  ((c9_field_get_or_create ⟨3, []⟩ "topographic__elevation" "float64").1 rfl).1
